import Mathlib

/-!
Verification of the termscp transfer engine
(`src/ui/activities/filetransfer/session.rs`).

The development embeds the transfer engine as executable Lean functions:

* Level 1 — the chunked copy loops of `filetransfer_send_one` and
  `filetransfer_recv_one`, driven by an explicit script of environment
  responses (read results, short-write results, wall-clock instants and
  cancellation signals delivered by `read_input_event`).
* Level 2 — the recursive walks `filetransfer_send_recurse` and
  `filetransfer_recv_recurse` together with the payload wrappers
  (`filetransfer_send_any` / `_many` / `_file`, and the `recv` mirrors),
  driven by annotated directory trees.  The per-file streaming outcome is
  abstracted by a `FileBehavior` annotation; everything else (destination
  path computation, mkdir handling, scan handling, the abort-break in the
  child loop, the cleanup policy) is translated from the source.

The progress tracker (`self.transfer.full` / `self.transfer.partial`,
`init`, `update_progress`, `reset`, the `aborted` flag) lives outside the
provided sources; those pieces are modelled from the spec (§3, §4.1) and
are marked as such.
-/

/-- Translation of the `TransferErrorReason` enum of `session.rs`.
The payloads (`std::io::Error`, `HostError`, `FileTransferError`) are not
inspected by any of the code under study (`matches!` only looks at the
constructor), so they are dropped. -/
inductive TransferErrorReason where
  | abrupted
  | couldNotRewind
  | localIoError
  | hostError
  | remoteIoError
  | fileTransferError
deriving DecidableEq, Repr, BEq

/-- The `thiserror` display strings of `TransferErrorReason` (the `{0}`
payload interpolations are dropped together with the payloads). -/
def TransferErrorReason.message : TransferErrorReason → String
  | .abrupted => "File transfer aborted"
  | .couldNotRewind => "Failed to seek file"
  | .localIoError => "I/O error on localhost"
  | .hostError => "Host error"
  | .remoteIoError => "I/O error on remote"
  | .fileTransferError => "File transfer error"

/-- Modelled from the spec (§4.1): one progress counter of the Progress
Tracker, holding the recorded total and the bytes transferred so far.
The tracker implementation is not among the provided sources. -/
structure ProgressState where
  total : Nat
  transferred : Nat
deriving DecidableEq, Repr

/-- Modelled from the spec (§4.1): `init(total_bytes)` resets transferred
to zero and records the total. -/
def ProgressState.init (total : Nat) : ProgressState :=
  { total := total, transferred := 0 }

/-- Modelled from the spec (§4.1): `update_progress(delta)` adds `delta`
to the transferred counter. -/
def ProgressState.update_progress (p : ProgressState) (delta : Nat) : ProgressState :=
  { p with transferred := p.transferred + delta }

/-- Modelled from the spec (§3): the per-invocation `TransferStates`
owned by the activity: the sticky `aborted` flag and the two nested
progress counters (`full` for the whole payload, `part` for the entry
currently streaming; the source calls the latter `partial`). -/
structure TransferStates where
  aborted : Bool
  full : ProgressState
  part : ProgressState
deriving DecidableEq, Repr

/-- Modelled from the spec (§3): `reset()` clears the aborted flag and
both counters at the start of an invocation. -/
def TransferStates.reset : TransferStates :=
  { aborted := false, full := ProgressState.init 0, part := ProgressState.init 0 }

/-- Ghost record of the two counters at one observation point (taken
after `partial.init` and after every `update_progress` pair). -/
structure Observation where
  partTransferred : Nat
  partTotal : Nat
  fullTransferred : Nat
  fullTotal : Nat
deriving DecidableEq, Repr

/-- Both inequalities of the spec's progress invariant at one
observation point. -/
def obsLe (o : Observation) : Bool :=
  decide (o.partTransferred ≤ o.partTotal) && decide (o.fullTransferred ≤ o.fullTotal)

def mkObs (tr : TransferStates) : Observation :=
  { partTransferred := tr.part.transferred
    partTotal := tr.part.total
    fullTransferred := tr.full.transferred
    fullTotal := tr.full.total }

/-- Environment responses consumed by one iteration of the chunked copy
loop: the wall-clock instant (ms) at the input-event check, whether a
performed `read_input_event` delivers the user's cancellation, the result
of the `read` call (`none` is an I/O error on the side being read from,
`some n` reads `n` bytes into the 64 KiB buffer), and the responses of
the inner short-write loop (`none` is an I/O error on the side being
written to, `some b` accepts `b` bytes). -/
structure CopyEnvIter where
  now : Nat
  abortSignal : Bool
  readResult : Option Nat
  writeResults : List (Option Nat)
deriving DecidableEq, Repr

/-- State threaded through `filetransfer_send_one` / `filetransfer_recv_one`:
the activity's `TransferStates` plus the loop locals
(`total_bytes_written`, `last_input_event_fetch`) and ghost trackers
(`polls` records the instants of every `read_input_event` call, `obs` the
progress observation points, `created`/`removed` the local files opened
for writing and removed). -/
structure CopySt where
  tr : TransferStates
  totalBytesWritten : Nat
  lastInputEventFetch : Option Nat
  polls : List Nat
  obs : List Observation
  created : List (List String)
  removed : List (List String)
deriving DecidableEq, Repr

def CopySt.start : CopySt :=
  { tr := TransferStates.reset, totalBytesWritten := 0, lastInputEventFetch := none,
    polls := [], obs := [], created := [], removed := [] }

/-- The input-event condition of the copy loops:
`last_input_event_fetch.is_none() || elapsed ≥ 500 ms`. -/
def pollDue (lastFetch : Option Nat) (now : Nat) : Bool :=
  lastFetch.isNone || decide (500 ≤ now - lastFetch.getD now)

/-- Modelled from the spec (§3, §5): `read_input_event` services pending
input; if the user requested cancellation the sticky `aborted` flag is
set.  The implementation is outside the provided sources.  The instant is
recorded in the ghost `polls` list and `last_input_event_fetch` is reset,
as in the source loop. -/
def readInputEvent (s : CopySt) (it : CopyEnvIter) : CopySt :=
  { s with tr := { s.tr with aborted := s.tr.aborted || it.abortSignal },
           lastInputEventFetch := some it.now,
           polls := s.polls ++ [it.now] }

/-- `partial.init(file_size)` at the head of a copy, with a ghost
observation of the counters it installs. -/
def partInit (s : CopySt) (size : Nat) : CopySt :=
  let tr := { s.tr with part := ProgressState.init size }
  { s with tr := tr, obs := s.obs ++ [mkObs tr] }

/-- The `update_progress` pair performed after a fully written chunk,
with a ghost observation of the counters it leaves. -/
def progressUpdate (s : CopySt) (delta : Nat) : CopySt :=
  let tr := { s.tr with part := s.tr.part.update_progress delta,
                        full := s.tr.full.update_progress delta }
  { s with tr := tr, obs := s.obs ++ [mkObs tr] }

inductive WriteOutcome where
  | done (delta : Nat)
  | ioErr
deriving DecidableEq, Repr

/-- The inner short-write loop of both copy loops:
`while delta < bytes_read { match write(buffer[delta..bytes_read]) }`.
Returns `none` when the response script runs out (the source loop would
keep calling `write`). -/
def writeLoop (bytesRead : Nat) : List (Option Nat) → Nat → Option WriteOutcome
  | script, delta =>
    if bytesRead ≤ delta then some (.done delta)
    else match script with
      | [] => none
      | none :: _ => some .ioErr
      | some b :: rest => writeLoop bytesRead rest (delta + b)

/-- Validity of a short-write response script for a chunk of `bytesRead`
bytes: each accepted amount is at most the length of the slice
`buffer[delta..bytes_read]` that was passed to `write` (the `Write`
contract). -/
def writeScriptValid (bytesRead : Nat) : List (Option Nat) → Nat → Bool
  | [], _ => true
  | none :: _, _ => true
  | some b :: rest, delta => decide (delta + b ≤ bytesRead) && writeScriptValid bytesRead rest (delta + b)

/-- A loop-iteration environment is valid when its write responses obey
the `Write` contract for the chunk its read delivered. -/
def iterValid (it : CopyEnvIter) : Bool :=
  match it.readResult with
  | none => true
  | some n => writeScriptValid n it.writeResults 0

/-- Total number of bytes delivered by the read side over a whole script. -/
def scriptReadSum (script : List CopyEnvIter) : Nat :=
  (script.map (fun it => it.readResult.getD 0)).sum

/-- The input-event check at the head of each copy-loop iteration:
`read_input_event` is called when it is due, otherwise nothing happens. -/
def pollStep (s : CopySt) (it : CopyEnvIter) : CopySt :=
  if pollDue s.lastInputEventFetch it.now then readInputEvent s it else s

/-- The chunked copy loop shared by `filetransfer_send_one` and
`filetransfer_recv_one` (the two loops in the source are textually
identical up to which side is read and which is written; `readErr` and
`writeErr` are the `TransferErrorReason` constructors used for a failing
read and a failing write).  One script element drives one iteration;
`none` means the script ran out while the loop was still running.  The
progress-bar redraw throttling (`last_progress_val`, `view()`) is pure
UI and is elided. -/
def copyLoop (readErr writeErr : TransferErrorReason) (size : Nat) :
    List CopyEnvIter → CopySt → Option (CopySt × Except TransferErrorReason Unit)
  | [], s =>
    if s.totalBytesWritten < size && !s.tr.aborted then none
    else some (s, if s.tr.aborted then .error .abrupted else .ok ())
  | it :: rest, s =>
    if s.totalBytesWritten < size && !s.tr.aborted then
      let s1 := pollStep s it
      match it.readResult with
      | none => some (s1, .error readErr)
      | some bytesRead =>
        let s2 := { s1 with totalBytesWritten := s1.totalBytesWritten + bytesRead }
        if bytesRead = 0 then copyLoop readErr writeErr size rest s2
        else
          match writeLoop bytesRead it.writeResults 0 with
          | none => none
          | some .ioErr => some (s2, .error writeErr)
          | some (.done delta) => copyLoop readErr writeErr size rest (progressUpdate s2 delta)
    else some (s, if s.tr.aborted then .error .abrupted else .ok ())

/-- Environment of one `filetransfer_send_one` call: whether
`host.open_file_read` succeeds, whether `client.send_file` succeeds, the
file size reported by seeking to the end, whether the rewind seek
succeeds, and the copy-loop script. -/
structure SendOneEnv where
  openReadOk : Bool
  sendFileOk : Bool
  fileSize : Nat
  rewindOk : Bool
  script : List CopyEnvIter
deriving DecidableEq, Repr

/-- Translation of `filetransfer_send_one`: open local for read
(`HostError` on failure), open the remote stream (`FileTransferError` on
failure), measure the size, `partial.init`, rewind (`CouldNotRewind` on
failure), then run the copy loop; reading fails with `LocalIoError` and
writing with `RemoteIoError`.  `on_sent` only logs and is elided. -/
def filetransfer_send_one (env : SendOneEnv) (s : CopySt) :
    Option (CopySt × Except TransferErrorReason Unit) :=
  if !env.openReadOk then some (s, .error .hostError)
  else if !env.sendFileOk then some (s, .error .fileTransferError)
  else
    let s := partInit s env.fileSize
    if !env.rewindOk then some (s, .error .couldNotRewind)
    else copyLoop .localIoError .remoteIoError env.fileSize env.script
      { s with totalBytesWritten := 0, lastInputEventFetch := none }

/-- Environment of one `filetransfer_recv_one` call: whether
`host.open_file_write` succeeds, whether `client.recv_file` succeeds, and
the copy-loop script. -/
structure RecvOneEnv where
  openWriteOk : Bool
  recvFileOk : Bool
  script : List CopyEnvIter
deriving DecidableEq, Repr

/-- Translation of `filetransfer_recv_one`: open the local file for
write (`HostError` on failure; on success the file now exists, recorded
in the ghost `created` list), open the remote stream (`FileTransferError`
on failure), `partial.init(remote.size)`, then the copy loop; reading
fails with `RemoteIoError` and writing with `LocalIoError`.  The
best-effort chmod and `on_recv` only log and are elided.  Note that no
removal of the local file happens anywhere in this function. -/
def filetransfer_recv_one (env : RecvOneEnv) (remoteSize : Nat) (localPath : List String)
    (s : CopySt) : Option (CopySt × Except TransferErrorReason Unit) :=
  if !env.openWriteOk then some (s, .error .hostError)
  else
    let s := { s with created := s.created ++ [localPath] }
    if !env.recvFileOk then some (s, .error .fileTransferError)
    else
      let s := partInit s remoteSize
      copyLoop .remoteIoError .localIoError remoteSize env.script
        { s with totalBytesWritten := 0, lastInputEventFetch := none }

/-- Translation of `filetransfer_send_file` (the `TransferPayload::File`
branch of `filetransfer_send`): reset the transfer states,
`full.init(file.size)` with the snapshot size, run
`filetransfer_send_one`, and map the error to its display string.
The progress-bar mount and unmount are elided. -/
def filetransfer_send_file (snapshotSize : Nat) (env : SendOneEnv) :
    Option (CopySt × Except String Unit) :=
  let s := CopySt.start
  let s := { s with tr := { s.tr with full := ProgressState.init snapshotSize } }
  match filetransfer_send_one env s with
  | none => none
  | some (s', r) => some (s', r.mapError TransferErrorReason.message)

/-- Translation of `filetransfer_recv_file` (the `TransferPayload::File`
branch of `filetransfer_recv`): reset the transfer states,
`full.init(entry.size)`, run `filetransfer_recv_one` on
`local_path`, and map the error to its display string.  No cleanup of a
partial local file is performed on any path through this function. -/
def filetransfer_recv_file (entrySize : Nat) (env : RecvOneEnv) (localPath : List String) :
    Option (CopySt × Except String Unit) :=
  let s := CopySt.start
  let s := { s with tr := { s.tr with full := ProgressState.init entrySize } }
  match filetransfer_recv_one env entrySize localPath s with
  | none => none
  | some (s', r) => some (s', r.mapError TransferErrorReason.message)

/-- Outcome of `client.mkdir` for a directory entry on the send path:
success, a failure whose `kind()` is `DirectoryAlreadyExists`, or any
other failure. -/
inductive MkdirOutcome where
  | ok
  | alreadyExists
  | otherError
deriving DecidableEq, Repr

/-- Abstract per-file outcome of one `filetransfer_send_one` /
`filetransfer_recv_one` call made by the recursive walk, when the abort
flag is not yet set at the call: `res` is the returned result (`none` for
success), `bytes` the number of bytes that got copied and counted into
the progress trackers, `setsAbort` whether a poll during this copy
observed the user's cancellation (leaving the sticky flag set). -/
structure FileBehavior where
  res : Option TransferErrorReason
  bytes : Nat
  setsAbort : Bool
deriving DecidableEq, Repr

/-- The error reasons produced before the copy loop of
`filetransfer_send_one` starts (open local / open remote stream /
rewind); these are unaffected by the abort flag and copy nothing. -/
def sendPreErrs : List TransferErrorReason :=
  [.hostError, .fileTransferError, .couldNotRewind]

/-- The error reasons produced before the copy loop of
`filetransfer_recv_one` starts (open local / open remote stream; there
is no rewind on the receive path). -/
def recvPreErrs : List TransferErrorReason :=
  [.hostError, .fileTransferError]

/-- Semantics of one per-file call in the walk, abstracting the Level-1
copy functions: a pre-loop failure happens regardless of the flag and
copies nothing; if the flag is already set the copy loop is skipped and
the call returns `Abrupted` having copied nothing (see
`copyLoop_aborted_entry` below); otherwise the annotated behavior
happens.  Returns (flag afterwards, bytes counted, result). -/
def runFileTransfer (preErrs : List TransferErrorReason) (aborted : Bool)
    (b : FileBehavior) : Bool × Nat × Option TransferErrorReason :=
  if (match b.res with | some e => preErrs.contains e | none => false) then
    (aborted, 0, b.res)
  else if aborted then (true, 0, some .abrupted)
  else (aborted || b.setsAbort, b.bytes, b.res)

/-- A local `FsEntry` tree as seen by the send walk: a file carries its
snapshot size and the abstract outcome of its streaming copy; a
directory carries the outcome of the remote `mkdir`, whether
`host.scan_dir` on it succeeds, and its children (ignored when the scan
fails).  The same tree is read by `get_total_transfer_size_local` and by
`filetransfer_send_recurse`, reflecting that both query the same local
provider. -/
inductive SendNode where
  | file (name : String) (size : Nat) (beh : FileBehavior)
  | dir (name : String) (mk : MkdirOutcome) (scanOk : Bool) (children : List SendNode)

/-- A remote `FsEntry` tree as seen by the receive walk: a file carries
its snapshot size and the abstract outcome of its streaming copy; a
directory carries whether `host.mkdir_ex` succeeds, whether
`client.list_dir` on it succeeds, and its children. -/
inductive RecvNode where
  | file (name : String) (size : Nat) (beh : FileBehavior)
  | dir (name : String) (mkOk : Bool) (scanOk : Bool) (children : List RecvNode)

/-- Walk-level transfer state: the sticky abort flag and the `full`
progress counter (`fullTransferred` / `fullTotal`). -/
structure WalkSt where
  aborted : Bool
  fullTransferred : Nat
  fullTotal : Nat
deriving DecidableEq, Repr

/-- Observable actions of the recursive walks.  `transfer p r c` is a
completed per-file call with destination path `p`, result `r` (`none` on
success) and `c` true exactly when the walk then probed (stat) the
destination and attempted its removal; the mkdir and scan events record
directory handling. -/
inductive WalkEvent where
  | transfer (path : List String) (res : Option TransferErrorReason) (cleaned : Bool)
  | mkdirOk (path : List String)
  | mkdirExists (path : List String)
  | mkdirFail (path : List String)
  | scanFail (path : List String)
deriving DecidableEq, Repr

mutual
/-- Translation of `filetransfer_send_recurse`: compute the destination
path from `dst_name` (falling back to the entry's own name); a file is
sent with `filetransfer_send_one` and, if that fails with `Abrupted` or
`RemoteIoError`, the remote destination is probed and removed; for a
directory, `client.mkdir` is attempted first (`DirectoryAlreadyExists`
counts as success, any other error returns at once), then the local
scan's children are walked with `dst_name = None`, breaking as soon as
the abort flag is observed.  Logging, the remote-directory reload and
the abort popup are elided.  Returns the new state and the events of
this subtree. -/
def filetransfer_send_recurse : SendNode → List String → Option String → WalkSt →
    WalkSt × List WalkEvent
  | .file nm _ beh, curr, dstName, s =>
    let remotePath := curr ++ [dstName.getD nm]
    let out := runFileTransfer sendPreErrs s.aborted beh
    let s := { s with aborted := out.1, fullTransferred := s.fullTransferred + out.2.1 }
    match out.2.2 with
    | none => (s, [.transfer remotePath none false])
    | some e =>
      if e = .abrupted ∨ e = .remoteIoError then
        (s, [.transfer remotePath (some e) true])
      else
        (s, [.transfer remotePath (some e) false])
  | .dir nm mk scanOk children, curr, dstName, s =>
    let remotePath := curr ++ [dstName.getD nm]
    match mk with
    | .ok =>
      if scanOk then
        let out := sendChildren children remotePath s
        (out.1, .mkdirOk remotePath :: out.2)
      else
        (s, [.mkdirOk remotePath, .scanFail remotePath])
    | .alreadyExists =>
      if scanOk then
        let out := sendChildren children remotePath s
        (out.1, .mkdirExists remotePath :: out.2)
      else
        (s, [.mkdirExists remotePath, .scanFail remotePath])
    | .otherError => (s, [.mkdirFail remotePath])

/-- The per-directory child loop of `filetransfer_send_recurse`:
`for entry in entries { if aborted { break } recurse(entry, path, None) }`. -/
def sendChildren : List SendNode → List String → WalkSt → WalkSt × List WalkEvent
  | [], _, s => (s, [])
  | c :: rest, rp, s =>
    if s.aborted then (s, [])
    else
      let out1 := filetransfer_send_recurse c rp none s
      let out2 := sendChildren rest rp out1.1
      (out2.1, out1.2 ++ out2.2)
end

mutual
/-- Translation of `filetransfer_recv_recurse`: compute the local
destination path from `dst_name`; a file is received with
`filetransfer_recv_one` and, if that fails with `Abrupted` or
`LocalIoError`, the partial local file is probed and removed; for a
directory, `host.mkdir_ex` is attempted (on failure only a log entry is
produced and the subtree is skipped), then the remote listing's children
are walked with `dst_name = None`, breaking as soon as the abort flag is
observed.  The best-effort chmod, logging and the local reload are
elided. -/
def filetransfer_recv_recurse : RecvNode → List String → Option String → WalkSt →
    WalkSt × List WalkEvent
  | .file nm _ beh, localPath, dstName, s =>
    let localFilePath := localPath ++ [dstName.getD nm]
    let out := runFileTransfer recvPreErrs s.aborted beh
    let s := { s with aborted := out.1, fullTransferred := s.fullTransferred + out.2.1 }
    match out.2.2 with
    | none => (s, [.transfer localFilePath none false])
    | some e =>
      if e = .abrupted ∨ e = .localIoError then
        (s, [.transfer localFilePath (some e) true])
      else
        (s, [.transfer localFilePath (some e) false])
  | .dir nm mkOk scanOk children, localPath, dstName, s =>
    let localDirPath := localPath ++ [dstName.getD nm]
    if mkOk then
      if scanOk then
        let out := recvChildren children localDirPath s
        (out.1, .mkdirOk localDirPath :: out.2)
      else
        (s, [.mkdirOk localDirPath, .scanFail localDirPath])
    else
      (s, [.mkdirFail localDirPath])

/-- The per-directory child loop of `filetransfer_recv_recurse`. -/
def recvChildren : List RecvNode → List String → WalkSt → WalkSt × List WalkEvent
  | [], _, s => (s, [])
  | c :: rest, rp, s =>
    if s.aborted then (s, [])
    else
      let out1 := filetransfer_recv_recurse c rp none s
      let out2 := recvChildren rest rp out1.1
      (out2.1, out1.2 ++ out2.2)
end

mutual
/-- Translation of `get_total_transfer_size_local`: a file contributes
its size; a directory is scanned with `host.scan_dir` and contributes
the recursive sum of its children, or zero (after a log entry) when the
scan fails. -/
def get_total_transfer_size_local : SendNode → Nat
  | .file _ size _ => size
  | .dir _ _ scanOk children => if scanOk then sendSizeSum children else 0

def sendSizeSum : List SendNode → Nat
  | [] => 0
  | c :: rest => get_total_transfer_size_local c + sendSizeSum rest
end

mutual
/-- Translation of `get_total_transfer_size_remote`: as the local
version, with `client.list_dir` as the scanning provider. -/
def get_total_transfer_size_remote : RecvNode → Nat
  | .file _ size _ => size
  | .dir _ _ scanOk children => if scanOk then recvSizeSum children else 0

def recvSizeSum : List RecvNode → Nat
  | [] => 0
  | c :: rest => get_total_transfer_size_remote c + recvSizeSum rest
end

/-- `transfer.reset()` followed by `transfer.full.init(total)` at the
head of the payload wrappers (modelled from the spec, §3 and §4.1). -/
def walkStart (total : Nat) : WalkSt :=
  { aborted := false, fullTransferred := 0, fullTotal := total }

/-- Translation of `filetransfer_send_any`: reset, install the aggregate
size computed by `get_total_transfer_size_local`, walk the entry, and
return `Ok(())` unconditionally.  The progress bar is elided. -/
def filetransfer_send_any (node : SendNode) (currRemotePath : List String)
    (dstName : Option String) : (WalkSt × List WalkEvent) × Except String Unit :=
  let s := walkStart (get_total_transfer_size_local node)
  (filetransfer_send_recurse node currRemotePath dstName s, .ok ())

/-- The `entries.iter().for_each(...)` loop of `filetransfer_send_many`:
every top-level entry is walked with `dst_name = None`; there is no
abort check between top-level entries. -/
def sendManyLoop : List SendNode → List String → WalkSt → WalkSt × List WalkEvent
  | [], _, s => (s, [])
  | e :: rest, p, s =>
    let out1 := filetransfer_send_recurse e p none s
    let out2 := sendManyLoop rest p out1.1
    (out2.1, out1.2 ++ out2.2)

/-- Translation of `filetransfer_send_many`: reset, install the sum of
the entries' aggregate sizes, walk every entry, and return `Ok(())`
unconditionally. -/
def filetransfer_send_many (entries : List SendNode) (currRemotePath : List String) :
    (WalkSt × List WalkEvent) × Except String Unit :=
  let s := walkStart ((entries.map get_total_transfer_size_local).sum)
  (sendManyLoop entries currRemotePath s, .ok ())

/-- Translation of `filetransfer_recv_any`: reset, install the aggregate
size computed by `get_total_transfer_size_remote`, walk the entry, and
return `Ok(())` unconditionally. -/
def filetransfer_recv_any (node : RecvNode) (localPath : List String)
    (dstName : Option String) : (WalkSt × List WalkEvent) × Except String Unit :=
  let s := walkStart (get_total_transfer_size_remote node)
  (filetransfer_recv_recurse node localPath dstName s, .ok ())

/-- The `entries.iter().for_each(...)` loop of `filetransfer_recv_many`. -/
def recvManyLoop : List RecvNode → List String → WalkSt → WalkSt × List WalkEvent
  | [], _, s => (s, [])
  | e :: rest, p, s =>
    let out1 := filetransfer_recv_recurse e p none s
    let out2 := recvManyLoop rest p out1.1
    (out2.1, out1.2 ++ out2.2)

/-- Translation of `filetransfer_recv_many`: reset, install the sum of
the entries' aggregate sizes, walk every entry, and return `Ok(())`
unconditionally. -/
def filetransfer_recv_many (entries : List RecvNode) (localPath : List String) :
    (WalkSt × List WalkEvent) × Except String Unit :=
  let s := walkStart ((entries.map get_total_transfer_size_remote).sum)
  (recvManyLoop entries localPath s, .ok ())

theorem pollStep_obs (s : CopySt) (it : CopyEnvIter) : (pollStep s it).obs = s.obs := by
  unfold pollStep readInputEvent; split <;> rfl

theorem pollStep_part (s : CopySt) (it : CopyEnvIter) : (pollStep s it).tr.part = s.tr.part := by
  unfold pollStep readInputEvent; split <;> rfl

theorem pollStep_full (s : CopySt) (it : CopyEnvIter) : (pollStep s it).tr.full = s.tr.full := by
  unfold pollStep readInputEvent; split <;> rfl

theorem pollStep_totalBytes (s : CopySt) (it : CopyEnvIter) :
    (pollStep s it).totalBytesWritten = s.totalBytesWritten := by
  unfold pollStep readInputEvent; split <;> rfl

theorem progressUpdate_obs (s : CopySt) (d : Nat) :
    (progressUpdate s d).obs = s.obs ++ [mkObs (progressUpdate s d).tr] := by
  rfl

/-- A short-write loop that terminates normally under the `Write`
contract has written the whole chunk. -/
theorem writeLoop_valid_done (bytesRead : Nat) :
    ∀ (script : List (Option Nat)) (delta d : Nat),
      writeScriptValid bytesRead script delta = true →
      delta ≤ bytesRead →
      writeLoop bytesRead script delta = some (.done d) →
      d = bytesRead := by
  intro script
  induction script with
  | nil =>
    intro delta d _ hle hw
    rw [writeLoop.eq_def] at hw
    by_cases h : bytesRead ≤ delta
    · simp [h] at hw
      omega
    · simp [h] at hw
  | cons head tail ih =>
    intro delta d hv hle hw
    rw [writeLoop.eq_def] at hw
    by_cases h : bytesRead ≤ delta
    · simp [h] at hw
      omega
    · cases head with
      | none => simp [h] at hw
      | some b =>
        simp only [h, if_false] at hw
        rw [writeScriptValid] at hv
        simp only [Bool.and_eq_true, decide_eq_true_eq] at hv
        exact ih (delta + b) d hv.2 (by omega) hw


/-- If the abort flag is observed set at the head of the copy loop, the
loop body never runs and the copy surfaces `Abrupted` with the state
untouched. -/
theorem copyLoop_aborted_entry (re we : TransferErrorReason) (size : Nat)
    (script : List CopyEnvIter) (s : CopySt) (h : s.tr.aborted = true) :
    copyLoop re we size script s = some (s, .error .abrupted) := by
  cases script <;> simp [copyLoop, h]

@[simp] theorem progressUpdate_part_total (s : CopySt) (d : Nat) :
    (progressUpdate s d).tr.part.total = s.tr.part.total := rfl

@[simp] theorem progressUpdate_part_trans (s : CopySt) (d : Nat) :
    (progressUpdate s d).tr.part.transferred = s.tr.part.transferred + d := rfl

@[simp] theorem progressUpdate_full_total (s : CopySt) (d : Nat) :
    (progressUpdate s d).tr.full.total = s.tr.full.total := rfl

@[simp] theorem progressUpdate_full_trans (s : CopySt) (d : Nat) :
    (progressUpdate s d).tr.full.transferred = s.tr.full.transferred + d := rfl

@[simp] theorem progressUpdate_totalBytes (s : CopySt) (d : Nat) :
    (progressUpdate s d).totalBytesWritten = s.totalBytesWritten := rfl

theorem scriptReadSum_cons (it : CopyEnvIter) (rest : List CopyEnvIter) :
    scriptReadSum (it :: rest) = it.readResult.getD 0 + scriptReadSum rest := by
  simp [scriptReadSum]

/-- The progress invariant holds at every observation point recorded by
the copy loop, provided the read side cannot deliver more bytes than the
installed size, the write responses obey the `Write` contract, and the
aggregate counter has room for this file. -/
theorem copyLoop_obs (re we : TransferErrorReason) (size : Nat) :
    ∀ (script : List CopyEnvIter) (s s' : CopySt) (r : Except TransferErrorReason Unit),
      s.tr.part.total = size →
      s.tr.part.transferred = s.totalBytesWritten →
      s.totalBytesWritten + scriptReadSum script ≤ size →
      s.tr.full.transferred + (size - s.tr.part.transferred) ≤ s.tr.full.total →
      script.all iterValid = true →
      s.obs.all obsLe = true →
      copyLoop re we size script s = some (s', r) →
      s'.obs.all obsLe = true := by
  intro script
  induction script with
  | nil =>
    intro s s' r h1 h2 h3 h4 h5 h6 hc
    simp only [copyLoop] at hc
    split at hc
    · exact absurd hc (by simp)
    · simp only [Option.some.injEq, Prod.mk.injEq] at hc
      obtain ⟨hs, -⟩ := hc
      exact hs ▸ h6
  | cons it rest ih =>
    intro s s' r h1 h2 h3 h4 h5 h6 hc
    simp only [List.all_cons, Bool.and_eq_true] at h5
    rw [scriptReadSum_cons] at h3
    simp only [copyLoop] at hc
    split at hc
    · cases hread : it.readResult with
      | none =>
        simp only [hread, Option.some.injEq, Prod.mk.injEq] at hc
        obtain ⟨hs, -⟩ := hc
        rw [← hs, pollStep_obs]
        exact h6
      | some n =>
        rw [hread] at h3
        simp only [Option.getD_some] at h3
        simp only [hread] at hc
        by_cases hn : n = 0
        · subst hn
          rw [if_pos rfl] at hc
          refine ih _ s' r ?_ ?_ ?_ ?_ h5.2 ?_ hc
          · simpa [pollStep_part] using h1
          · simp only [pollStep_part, pollStep_totalBytes]
            omega
          · simp only [pollStep_totalBytes]
            omega
          · simp only [pollStep_part, pollStep_full]
            omega
          · simpa [pollStep_obs] using h6
        · rw [if_neg hn] at hc
          cases hw : writeLoop n it.writeResults 0 with
          | none => rw [hw] at hc; exact absurd hc (by simp)
          | some wout =>
            rw [hw] at hc
            cases wout with
            | ioErr =>
              simp only [Option.some.injEq, Prod.mk.injEq] at hc
              obtain ⟨hs, -⟩ := hc
              rw [← hs]
              simpa [pollStep_obs] using h6
            | done d =>
              have hval : writeScriptValid n it.writeResults 0 = true := by
                have hv := h5.1
                rw [iterValid, hread] at hv
                exact hv
              have hd : d = n := writeLoop_valid_done n it.writeResults 0 d hval (Nat.zero_le n) hw
              subst hd
              refine ih _ s' r ?_ ?_ ?_ ?_ h5.2 ?_ hc
              · simpa [pollStep_part] using h1
              · simp only [progressUpdate_part_trans, progressUpdate_totalBytes,
                  pollStep_part, pollStep_totalBytes]
                omega
              · simp only [progressUpdate_totalBytes, pollStep_totalBytes]
                omega
              · simp only [progressUpdate_full_trans, progressUpdate_full_total,
                  progressUpdate_part_trans, progressUpdate_part_total,
                  pollStep_part, pollStep_full]
                omega
              · rw [progressUpdate_obs, List.all_append, Bool.and_eq_true]
                refine ⟨by simpa [pollStep_obs] using h6, ?_⟩
                simp only [List.all_cons, List.all_nil, Bool.and_true]
                rw [obsLe]
                simp only [mkObs, Bool.and_eq_true, decide_eq_true_eq]
                constructor
                · simp only [progressUpdate_part_trans, progressUpdate_part_total,
                    pollStep_part]
                  omega
                · simp only [progressUpdate_full_trans, progressUpdate_full_total,
                    pollStep_part, pollStep_full]
                  omega
    · simp only [Option.some.injEq, Prod.mk.injEq] at hc
      obtain ⟨hs, -⟩ := hc
      exact hs ▸ h6

@[simp] theorem pollStep_polls_due (s : CopySt) (it : CopyEnvIter)
    (h : pollDue s.lastInputEventFetch it.now = true) :
    (pollStep s it).polls = s.polls ++ [it.now] := by
  simp [pollStep, h, readInputEvent]

@[simp] theorem pollStep_polls_not_due (s : CopySt) (it : CopyEnvIter)
    (h : pollDue s.lastInputEventFetch it.now = false) :
    (pollStep s it).polls = s.polls := by
  simp [pollStep, h]

/-- The ghost poll log only ever grows along the copy loop. -/
theorem copyLoop_polls_mono (re we : TransferErrorReason) (size : Nat) :
    ∀ (script : List CopyEnvIter) (s s' : CopySt) (r : Except TransferErrorReason Unit),
      copyLoop re we size script s = some (s', r) →
      ∃ l, s'.polls = s.polls ++ l := by
  intro script
  induction script with
  | nil =>
    intro s s' r hc
    simp only [copyLoop] at hc
    split at hc
    · exact absurd hc (by simp)
    · simp only [Option.some.injEq, Prod.mk.injEq] at hc
      exact ⟨[], by rw [← hc.1]; simp⟩
  | cons it rest ih =>
    intro s s' r hc
    simp only [copyLoop] at hc
    split at hc
    · have hpoll : ∃ l0, (pollStep s it).polls = s.polls ++ l0 := by
        by_cases hp : pollDue s.lastInputEventFetch it.now = true
        · exact ⟨[it.now], pollStep_polls_due s it hp⟩
        · exact ⟨[], by rw [pollStep_polls_not_due s it (by simpa using hp)]; simp⟩
      obtain ⟨l0, hl0⟩ := hpoll
      cases hread : it.readResult with
      | none =>
        simp only [hread, Option.some.injEq, Prod.mk.injEq] at hc
        exact ⟨l0, by rw [← hc.1]; exact hl0⟩
      | some n =>
        simp only [hread] at hc
        by_cases hn : n = 0
        · subst hn
          rw [if_pos rfl] at hc
          obtain ⟨l1, hl1⟩ := ih _ s' r hc
          exact ⟨l0 ++ l1, by rw [hl1]; simp only [hl0]; rw [List.append_assoc]⟩
        · rw [if_neg hn] at hc
          cases hw : writeLoop n it.writeResults 0 with
          | none => rw [hw] at hc; exact absurd hc (by simp)
          | some wout =>
            rw [hw] at hc
            cases wout with
            | ioErr =>
              simp only [Option.some.injEq, Prod.mk.injEq] at hc
              exact ⟨l0, by rw [← hc.1]; exact hl0⟩
            | done d =>
              obtain ⟨l1, hl1⟩ := ih _ s' r hc
              refine ⟨l0 ++ l1, ?_⟩
              rw [hl1]
              simp only [progressUpdate]
              simp only [hl0]
              rw [List.append_assoc]
    · simp only [Option.some.injEq, Prod.mk.injEq] at hc
      exact ⟨[], by rw [← hc.1]; simp⟩

/-- The first iteration of the copy loop always calls
`read_input_event`: `last_input_event_fetch` starts as `None`, so the
poll condition holds. -/
theorem copyLoop_first_poll (re we : TransferErrorReason) (size : Nat)
    (it : CopyEnvIter) (rest : List CopyEnvIter) (s s' : CopySt)
    (r : Except TransferErrorReason Unit)
    (hp : s.polls = []) (hf : s.lastInputEventFetch = none)
    (hlt : s.totalBytesWritten < size) (hab : s.tr.aborted = false)
    (hc : copyLoop re we size (it :: rest) s = some (s', r)) :
    s'.polls.head? = some it.now := by
  have hdue : pollDue s.lastInputEventFetch it.now = true := by
    simp [pollDue, hf]
  simp only [copyLoop] at hc
  rw [if_pos (by simp [hlt, hab])] at hc
  have hs1 : (pollStep s it).polls = [it.now] := by
    rw [pollStep_polls_due s it hdue, hp]
    simp
  cases hread : it.readResult with
  | none =>
    simp only [hread, Option.some.injEq, Prod.mk.injEq] at hc
    rw [← hc.1, hs1]
    rfl
  | some n =>
    simp only [hread] at hc
    by_cases hn : n = 0
    · subst hn
      rw [if_pos rfl] at hc
      obtain ⟨l, hl⟩ := copyLoop_polls_mono re we size rest _ s' r hc
      rw [hl]
      simp only [hs1]
      rfl
    · rw [if_neg hn] at hc
      cases hw : writeLoop n it.writeResults 0 with
      | none => rw [hw] at hc; exact absurd hc (by simp)
      | some wout =>
        rw [hw] at hc
        cases wout with
        | ioErr =>
          simp only [Option.some.injEq, Prod.mk.injEq] at hc
          rw [← hc.1, hs1]
          rfl
        | done d =>
          obtain ⟨l, hl⟩ := copyLoop_polls_mono re we size rest _ s' r hc
          rw [hl]
          simp only [progressUpdate, hs1]
          rfl

/-- Successive entries of a poll log are at least 500 ms apart. -/
def sep500 : List Nat → Bool
  | [] => true
  | [_] => true
  | a :: b :: rest => decide (a + 500 ≤ b) && sep500 (b :: rest)

theorem sep500_snoc : ∀ (l : List Nat) (t n : Nat),
    sep500 l = true → l.getLast? = some t → t + 500 ≤ n →
    sep500 (l ++ [n]) = true := by
  intro l
  induction l with
  | nil => intro t n _ hlast _; simp at hlast
  | cons a rest ih =>
    intro t n hs hlast hle
    cases rest with
    | nil =>
      simp only [List.getLast?_singleton, Option.some.injEq] at hlast
      subst hlast
      simp [sep500, hle]
    | cons b rest2 =>
      rw [sep500] at hs
      simp only [Bool.and_eq_true, decide_eq_true_eq] at hs
      have hlast2 : (b :: rest2).getLast? = some t := by
        rw [← hlast]
        rfl
      have := ih t n hs.2 hlast2 hle
      simp only [List.cons_append]
      rw [sep500]
      simp only [Bool.and_eq_true, decide_eq_true_eq]
      exact ⟨hs.1, by simpa using this⟩

/-- The invariant relating `last_input_event_fetch` to the poll log:
either no poll has happened yet, or the recorded instant is the last
poll. -/
def pollInv (s : CopySt) : Prop :=
  sep500 s.polls = true ∧
    ((s.lastInputEventFetch = none ∧ s.polls = []) ∨
      (∃ t, s.lastInputEventFetch = some t ∧ s.polls.getLast? = some t))

theorem pollStep_pollInv (s : CopySt) (it : CopyEnvIter) (h : pollInv s) :
    pollInv (pollStep s it) := by
  obtain ⟨hsep, hrel⟩ := h
  by_cases hp : pollDue s.lastInputEventFetch it.now = true
  · constructor
    · rw [pollStep_polls_due s it hp]
      rcases hrel with ⟨hf, hpl⟩ | ⟨t, hf, hlast⟩
      · rw [hpl]; rfl
      · refine sep500_snoc s.polls t it.now hsep hlast ?_
        rw [pollDue, hf] at hp
        simp only [Option.isNone_some, Bool.false_or, decide_eq_true_eq,
          Option.getD_some] at hp
        omega
    · refine Or.inr ⟨it.now, ?_, ?_⟩
      · simp [pollStep, hp, readInputEvent]
      · rw [pollStep_polls_due s it hp]
        simp
  · have hp' : pollDue s.lastInputEventFetch it.now = false := by simpa using hp
    constructor
    · rw [pollStep_polls_not_due s it hp']
      exact hsep
    · have hfetch : (pollStep s it).lastInputEventFetch = s.lastInputEventFetch := by
        simp [pollStep, hp']
      rw [pollStep_polls_not_due s it hp', hfetch]
      exact hrel

/-- Along the copy loop, the poll log stays 500 ms separated. -/
theorem copyLoop_polls_sep (re we : TransferErrorReason) (size : Nat) :
    ∀ (script : List CopyEnvIter) (s s' : CopySt) (r : Except TransferErrorReason Unit),
      pollInv s →
      copyLoop re we size script s = some (s', r) →
      sep500 s'.polls = true := by
  intro script
  induction script with
  | nil =>
    intro s s' r hinv hc
    simp only [copyLoop] at hc
    split at hc
    · exact absurd hc (by simp)
    · simp only [Option.some.injEq, Prod.mk.injEq] at hc
      rw [← hc.1]
      exact hinv.1
  | cons it rest ih =>
    intro s s' r hinv hc
    have hinv1 : pollInv (pollStep s it) := pollStep_pollInv s it hinv
    simp only [copyLoop] at hc
    split at hc
    · cases hread : it.readResult with
      | none =>
        simp only [hread, Option.some.injEq, Prod.mk.injEq] at hc
        rw [← hc.1]
        exact hinv1.1
      | some n =>
        simp only [hread] at hc
        by_cases hn : n = 0
        · subst hn
          rw [if_pos rfl] at hc
          exact ih _ s' r (by exact hinv1) hc
        · rw [if_neg hn] at hc
          cases hw : writeLoop n it.writeResults 0 with
          | none => rw [hw] at hc; exact absurd hc (by simp)
          | some wout =>
            rw [hw] at hc
            cases wout with
            | ioErr =>
              simp only [Option.some.injEq, Prod.mk.injEq] at hc
              rw [← hc.1]
              exact hinv1.1
            | done d =>
              refine ih _ s' r ?_ hc
              obtain ⟨hsep, hrel⟩ := hinv1
              exact ⟨hsep, by simpa [progressUpdate] using hrel⟩
    · simp only [Option.some.injEq, Prod.mk.injEq] at hc
      rw [← hc.1]
      exact hinv.1

/-- Per-event form of the send-side cleanup policy: a removal is
attempted exactly after failures with reason `Abrupted` or
`RemoteIoError`. -/
def eventCleanOkSend : WalkEvent → Prop
  | .transfer _ r c => c = true ↔ (r = some .abrupted ∨ r = some .remoteIoError)
  | _ => True

/-- Per-event form of the receive-side cleanup policy: a removal is
attempted exactly after failures with reason `Abrupted` or
`LocalIoError`. -/
def eventCleanOkRecv : WalkEvent → Prop
  | .transfer _ r c => c = true ↔ (r = some .abrupted ∨ r = some .localIoError)
  | _ => True

mutual
theorem sendRecurse_cleaned (node : SendNode) :
    ∀ (p : List String) (d : Option String) (s : WalkSt) (e : WalkEvent),
      e ∈ (filetransfer_send_recurse node p d s).2 → eventCleanOkSend e := by
  cases node with
  | file nm sz beh =>
    intro p d s e he
    simp only [filetransfer_send_recurse] at he
    cases hout : (runFileTransfer sendPreErrs s.aborted beh).2.2 with
    | none =>
      simp only [hout, List.mem_singleton] at he
      subst he
      simp [eventCleanOkSend]
    | some err =>
      simp only [hout] at he
      by_cases hcl : err = TransferErrorReason.abrupted ∨ err = TransferErrorReason.remoteIoError
      · rw [if_pos hcl] at he
        simp only [List.mem_singleton] at he
        subst he
        rcases hcl with h | h <;> subst h <;> simp [eventCleanOkSend]
      · rw [if_neg hcl] at he
        simp only [List.mem_singleton] at he
        subst he
        simp only [eventCleanOkSend, Option.some.injEq]
        simp [hcl]
  | dir nm mk scanOk children =>
    intro p d s e he
    cases mk with
    | otherError =>
      simp only [filetransfer_send_recurse, List.mem_singleton] at he
      subst he
      trivial
    | ok =>
      simp only [filetransfer_send_recurse] at he
      by_cases hscan : scanOk = true
      · rw [if_pos hscan] at he
        simp only [List.mem_cons] at he
        rcases he with he | he
        · subst he; trivial
        · exact sendChildren_cleaned children _ _ e he
      · rw [if_neg hscan] at he
        simp only [List.mem_cons, List.mem_singleton, List.not_mem_nil, or_false] at he
        rcases he with he | he <;> (subst he; trivial)
    | alreadyExists =>
      simp only [filetransfer_send_recurse] at he
      by_cases hscan : scanOk = true
      · rw [if_pos hscan] at he
        simp only [List.mem_cons] at he
        rcases he with he | he
        · subst he; trivial
        · exact sendChildren_cleaned children _ _ e he
      · rw [if_neg hscan] at he
        simp only [List.mem_cons, List.mem_singleton, List.not_mem_nil, or_false] at he
        rcases he with he | he <;> (subst he; trivial)

theorem sendChildren_cleaned (cs : List SendNode) :
    ∀ (rp : List String) (s : WalkSt) (e : WalkEvent),
      e ∈ (sendChildren cs rp s).2 → eventCleanOkSend e := by
  cases cs with
  | nil => intro rp s e he; simp [sendChildren] at he
  | cons c rest =>
    intro rp s e he
    simp only [sendChildren] at he
    by_cases hab : s.aborted = true
    · rw [if_pos hab] at he
      simp at he
    · rw [if_neg hab] at he
      simp only [List.mem_append] at he
      rcases he with he | he
      · exact sendRecurse_cleaned c _ _ _ e he
      · exact sendChildren_cleaned rest _ _ e he
end

mutual
theorem recvRecurse_cleaned (node : RecvNode) :
    ∀ (p : List String) (d : Option String) (s : WalkSt) (e : WalkEvent),
      e ∈ (filetransfer_recv_recurse node p d s).2 → eventCleanOkRecv e := by
  cases node with
  | file nm sz beh =>
    intro p d s e he
    simp only [filetransfer_recv_recurse] at he
    cases hout : (runFileTransfer recvPreErrs s.aborted beh).2.2 with
    | none =>
      simp only [hout, List.mem_singleton] at he
      subst he
      simp [eventCleanOkRecv]
    | some err =>
      simp only [hout] at he
      by_cases hcl : err = TransferErrorReason.abrupted ∨ err = TransferErrorReason.localIoError
      · rw [if_pos hcl] at he
        simp only [List.mem_singleton] at he
        subst he
        rcases hcl with h | h <;> subst h <;> simp [eventCleanOkRecv]
      · rw [if_neg hcl] at he
        simp only [List.mem_singleton] at he
        subst he
        simp only [eventCleanOkRecv, Option.some.injEq]
        simp [hcl]
  | dir nm mkOk scanOk children =>
    intro p d s e he
    simp only [filetransfer_recv_recurse] at he
    by_cases hmk : mkOk = true
    · rw [if_pos hmk] at he
      by_cases hscan : scanOk = true
      · rw [if_pos hscan] at he
        simp only [List.mem_cons] at he
        rcases he with he | he
        · subst he; trivial
        · exact recvChildren_cleaned children _ _ e he
      · rw [if_neg hscan] at he
        simp only [List.mem_cons, List.mem_singleton, List.not_mem_nil, or_false] at he
        rcases he with he | he <;> (subst he; trivial)
    · rw [if_neg hmk] at he
      simp only [List.mem_singleton] at he
      subst he
      trivial

theorem recvChildren_cleaned (cs : List RecvNode) :
    ∀ (rp : List String) (s : WalkSt) (e : WalkEvent),
      e ∈ (recvChildren cs rp s).2 → eventCleanOkRecv e := by
  cases cs with
  | nil => intro rp s e he; simp [recvChildren] at he
  | cons c rest =>
    intro rp s e he
    simp only [recvChildren] at he
    by_cases hab : s.aborted = true
    · rw [if_pos hab] at he
      simp at he
    · rw [if_neg hab] at he
      simp only [List.mem_append] at he
      rcases he with he | he
      · exact recvRecurse_cleaned c _ _ _ e he
      · exact recvChildren_cleaned rest _ _ e he
end

def isTransferEvent : WalkEvent → Bool
  | .transfer _ _ _ => true
  | _ => false

/-- Number of per-file transfer calls recorded in an event trace. -/
def countTransfers (l : List WalkEvent) : Nat :=
  (l.filter isTransferEvent).length

theorem countTransfers_append (a b : List WalkEvent) :
    countTransfers (a ++ b) = countTransfers a + countTransfers b := by
  simp [countTransfers, List.filter_append]

mutual
/-- Number of file nodes reachable through successful scans of a send
tree (an upper bound for the number of per-file calls the walk makes). -/
def sendFileCount : SendNode → Nat
  | .file _ _ _ => 1
  | .dir _ _ _ children => sendFileCountList children

def sendFileCountList : List SendNode → Nat
  | [] => 0
  | c :: rest => sendFileCount c + sendFileCountList rest
end

mutual
def recvFileCount : RecvNode → Nat
  | .file _ _ _ => 1
  | .dir _ _ _ children => recvFileCountList children

def recvFileCountList : List RecvNode → Nat
  | [] => 0
  | c :: rest => recvFileCount c + recvFileCountList rest
end

mutual
theorem sendRecurse_count (node : SendNode) :
    ∀ (p : List String) (d : Option String) (s : WalkSt),
      countTransfers (filetransfer_send_recurse node p d s).2 ≤ sendFileCount node := by
  cases node with
  | file nm sz beh =>
    intro p d s
    simp only [filetransfer_send_recurse, sendFileCount]
    cases hout : (runFileTransfer sendPreErrs s.aborted beh).2.2 with
    | none => simp [hout, countTransfers, isTransferEvent]
    | some err =>
      simp only [hout]
      by_cases hcl : err = TransferErrorReason.abrupted ∨ err = TransferErrorReason.remoteIoError
      · rw [if_pos hcl]; simp [countTransfers, isTransferEvent]
      · rw [if_neg hcl]; simp [countTransfers, isTransferEvent]
  | dir nm mk scanOk children =>
    intro p d s
    cases mk with
    | otherError =>
      simp [filetransfer_send_recurse, countTransfers, isTransferEvent]
    | ok =>
      simp only [filetransfer_send_recurse, sendFileCount]
      by_cases hscan : scanOk = true
      · rw [if_pos hscan]
        have := sendChildren_count children (p ++ [d.getD nm]) s
        simpa [countTransfers, isTransferEvent] using this
      · rw [if_neg hscan]
        simp [countTransfers, isTransferEvent]
    | alreadyExists =>
      simp only [filetransfer_send_recurse, sendFileCount]
      by_cases hscan : scanOk = true
      · rw [if_pos hscan]
        have := sendChildren_count children (p ++ [d.getD nm]) s
        simpa [countTransfers, isTransferEvent] using this
      · rw [if_neg hscan]
        simp [countTransfers, isTransferEvent]

theorem sendChildren_count (cs : List SendNode) :
    ∀ (rp : List String) (s : WalkSt),
      countTransfers (sendChildren cs rp s).2 ≤ sendFileCountList cs := by
  cases cs with
  | nil => intro rp s; simp [sendChildren, countTransfers]
  | cons c rest =>
    intro rp s
    simp only [sendChildren, sendFileCountList]
    by_cases hab : s.aborted = true
    · rw [if_pos hab]; simp [countTransfers]
    · rw [if_neg hab]
      rw [countTransfers_append]
      have h1 := sendRecurse_count c rp none s
      have h2 := sendChildren_count rest rp (filetransfer_send_recurse c rp none s).1
      omega
end

mutual
theorem recvRecurse_count (node : RecvNode) :
    ∀ (p : List String) (d : Option String) (s : WalkSt),
      countTransfers (filetransfer_recv_recurse node p d s).2 ≤ recvFileCount node := by
  cases node with
  | file nm sz beh =>
    intro p d s
    simp only [filetransfer_recv_recurse, recvFileCount]
    cases hout : (runFileTransfer recvPreErrs s.aborted beh).2.2 with
    | none => simp [hout, countTransfers, isTransferEvent]
    | some err =>
      simp only [hout]
      by_cases hcl : err = TransferErrorReason.abrupted ∨ err = TransferErrorReason.localIoError
      · rw [if_pos hcl]; simp [countTransfers, isTransferEvent]
      · rw [if_neg hcl]; simp [countTransfers, isTransferEvent]
  | dir nm mkOk scanOk children =>
    intro p d s
    simp only [filetransfer_recv_recurse, recvFileCount]
    by_cases hmk : mkOk = true
    · rw [if_pos hmk]
      by_cases hscan : scanOk = true
      · rw [if_pos hscan]
        have := recvChildren_count children (p ++ [d.getD nm]) s
        simpa [countTransfers, isTransferEvent] using this
      · rw [if_neg hscan]
        simp [countTransfers, isTransferEvent]
    · rw [if_neg hmk]
      simp [countTransfers, isTransferEvent]

theorem recvChildren_count (cs : List RecvNode) :
    ∀ (rp : List String) (s : WalkSt),
      countTransfers (recvChildren cs rp s).2 ≤ recvFileCountList cs := by
  cases cs with
  | nil => intro rp s; simp [recvChildren, countTransfers]
  | cons c rest =>
    intro rp s
    simp only [recvChildren, recvFileCountList]
    by_cases hab : s.aborted = true
    · rw [if_pos hab]; simp [countTransfers]
    · rw [if_neg hab]
      rw [countTransfers_append]
      have h1 := recvRecurse_count c rp none s
      have h2 := recvChildren_count rest rp (filetransfer_recv_recurse c rp none s).1
      omega
end

mutual
/-- The walk never modifies the installed aggregate total. -/
theorem sendRecurse_fullTotal (node : SendNode) :
    ∀ (p : List String) (d : Option String) (s : WalkSt),
      (filetransfer_send_recurse node p d s).1.fullTotal = s.fullTotal := by
  cases node with
  | file nm sz beh =>
    intro p d s
    simp only [filetransfer_send_recurse]
    cases hout : (runFileTransfer sendPreErrs s.aborted beh).2.2 with
    | none => simp [hout]
    | some err =>
      simp only [hout]
      by_cases hcl : err = TransferErrorReason.abrupted ∨ err = TransferErrorReason.remoteIoError
      · rw [if_pos hcl]
      · rw [if_neg hcl]
  | dir nm mk scanOk children =>
    intro p d s
    cases mk with
    | otherError => simp [filetransfer_send_recurse]
    | ok =>
      simp only [filetransfer_send_recurse]
      by_cases hscan : scanOk = true
      · rw [if_pos hscan]
        exact sendChildren_fullTotal children (p ++ [d.getD nm]) s
      · rw [if_neg hscan]
    | alreadyExists =>
      simp only [filetransfer_send_recurse]
      by_cases hscan : scanOk = true
      · rw [if_pos hscan]
        exact sendChildren_fullTotal children (p ++ [d.getD nm]) s
      · rw [if_neg hscan]

theorem sendChildren_fullTotal (cs : List SendNode) :
    ∀ (rp : List String) (s : WalkSt),
      (sendChildren cs rp s).1.fullTotal = s.fullTotal := by
  cases cs with
  | nil => intro rp s; simp [sendChildren]
  | cons c rest =>
    intro rp s
    simp only [sendChildren]
    by_cases hab : s.aborted = true
    · rw [if_pos hab]
    · rw [if_neg hab]
      rw [sendChildren_fullTotal rest rp (filetransfer_send_recurse c rp none s).1]
      exact sendRecurse_fullTotal c rp none s
end

mutual
theorem recvRecurse_fullTotal (node : RecvNode) :
    ∀ (p : List String) (d : Option String) (s : WalkSt),
      (filetransfer_recv_recurse node p d s).1.fullTotal = s.fullTotal := by
  cases node with
  | file nm sz beh =>
    intro p d s
    simp only [filetransfer_recv_recurse]
    cases hout : (runFileTransfer recvPreErrs s.aborted beh).2.2 with
    | none => simp [hout]
    | some err =>
      simp only [hout]
      by_cases hcl : err = TransferErrorReason.abrupted ∨ err = TransferErrorReason.localIoError
      · rw [if_pos hcl]
      · rw [if_neg hcl]
  | dir nm mkOk scanOk children =>
    intro p d s
    simp only [filetransfer_recv_recurse]
    by_cases hmk : mkOk = true
    · rw [if_pos hmk]
      by_cases hscan : scanOk = true
      · rw [if_pos hscan]
        exact recvChildren_fullTotal children (p ++ [d.getD nm]) s
      · rw [if_neg hscan]
    · rw [if_neg hmk]

theorem recvChildren_fullTotal (cs : List RecvNode) :
    ∀ (rp : List String) (s : WalkSt),
      (recvChildren cs rp s).1.fullTotal = s.fullTotal := by
  cases cs with
  | nil => intro rp s; simp [recvChildren]
  | cons c rest =>
    intro rp s
    simp only [recvChildren]
    by_cases hab : s.aborted = true
    · rw [if_pos hab]
    · rw [if_neg hab]
      rw [recvChildren_fullTotal rest rp (filetransfer_recv_recurse c rp none s).1]
      exact recvRecurse_fullTotal c rp none s
end

theorem sendManyLoop_fullTotal (entries : List SendNode) :
    ∀ (p : List String) (s : WalkSt), (sendManyLoop entries p s).1.fullTotal = s.fullTotal := by
  induction entries with
  | nil => intro p s; simp [sendManyLoop]
  | cons e rest ih =>
    intro p s
    simp only [sendManyLoop]
    rw [ih p (filetransfer_send_recurse e p none s).1]
    exact sendRecurse_fullTotal e p none s

theorem recvManyLoop_fullTotal (entries : List RecvNode) :
    ∀ (p : List String) (s : WalkSt), (recvManyLoop entries p s).1.fullTotal = s.fullTotal := by
  induction entries with
  | nil => intro p s; simp [recvManyLoop]
  | cons e rest ih =>
    intro p s
    simp only [recvManyLoop]
    rw [ih p (filetransfer_recv_recurse e p none s).1]
    exact recvRecurse_fullTotal e p none s

/-- All recorded observation points of a finished copy satisfy the
progress inequalities (`true` when the script ran out). -/
def allObsOk : Option (CopySt × Except TransferErrorReason Unit) → Bool
  | none => true
  | some (s, _) => s.obs.all obsLe

/-- The poll log of a finished copy (empty when the script ran out). -/
def pollsOf : Option (CopySt × Except TransferErrorReason Unit) → List Nat
  | none => []
  | some (s, _) => s.polls

/-- Replace the name of the top-level entry (what a `dst_name` rename
hint amounts to). -/
def SendNode.renameRoot : SendNode → String → SendNode
  | .file _ sz beh, n => .file n sz beh
  | .dir _ mk scanOk cs, n => .dir n mk scanOk cs

def RecvNode.renameRoot : RecvNode → String → RecvNode
  | .file _ sz beh, n => .file n sz beh
  | .dir _ mkOk scanOk cs, n => .dir n mkOk scanOk cs

theorem sendSizeSum_eq_map_sum :
    ∀ (cs : List SendNode), sendSizeSum cs = (cs.map get_total_transfer_size_local).sum := by
  intro cs
  induction cs with
  | nil => rfl
  | cons c rest ih => simp [sendSizeSum, ih]

theorem recvSizeSum_eq_map_sum :
    ∀ (cs : List RecvNode), recvSizeSum cs = (cs.map get_total_transfer_size_remote).sum := by
  intro cs
  induction cs with
  | nil => rfl
  | cons c rest ih => simp [recvSizeSum, ih]

theorem mapFileSizes (b : FileBehavior) :
    ∀ (l : List (String × Nat)),
      (l.map fun x => SendNode.file x.1 x.2 b).map get_total_transfer_size_local =
        l.map fun x => x.2 := by
  intro l
  induction l with
  | nil => rfl
  | cons x rest ih => simp [get_total_transfer_size_local, ih]

/-- C1: Cleanup policy of the recursive walk.  In every event trace of
`filetransfer_send_recurse`, a per-file transfer is followed by a
probe (stat) and removal of the remote destination exactly when its
failure reason is `Abrupted` or `RemoteIoError`; `LocalIoError`,
`HostError`, `CouldNotRewind` and `FileTransferError` attempt no
removal.  Mirror for `filetransfer_recv_recurse`: the partial local
file is probed and removed exactly when the reason is `Abrupted` or
`LocalIoError`. -/
theorem c1_cleanup_policy :
    (∀ (node : SendNode) (p : List String) (d : Option String) (s : WalkSt)
        (path : List String) (r : Option TransferErrorReason) (c : Bool),
        WalkEvent.transfer path r c ∈ (filetransfer_send_recurse node p d s).2 →
        (c = true ↔ (r = some TransferErrorReason.abrupted ∨
          r = some TransferErrorReason.remoteIoError))) ∧
    (∀ (node : RecvNode) (p : List String) (d : Option String) (s : WalkSt)
        (path : List String) (r : Option TransferErrorReason) (c : Bool),
        WalkEvent.transfer path r c ∈ (filetransfer_recv_recurse node p d s).2 →
        (c = true ↔ (r = some TransferErrorReason.abrupted ∨
          r = some TransferErrorReason.localIoError))) := by
  constructor
  · intro node p d s path r c he
    exact sendRecurse_cleaned node p d s _ he
  · intro node p d s path r c he
    exact recvRecurse_cleaned node p d s _ he

/-- Witness for C1 at a concrete failing upload: a `RemoteIoError` on
`a.bin` is followed by a removal attempt. -/
theorem c1_cleanup_policy_witness :
    (WalkEvent.transfer ["up", "a.bin"] (some TransferErrorReason.remoteIoError) true ∈
      (filetransfer_send_recurse
        (.file "a.bin" 10 ⟨some TransferErrorReason.remoteIoError, 3, false⟩)
        ["up"] none (walkStart 10)).2) ∧
    (true = true ↔ (some TransferErrorReason.remoteIoError = some TransferErrorReason.abrupted ∨
      some TransferErrorReason.remoteIoError = some TransferErrorReason.remoteIoError)) :=
  ⟨by decide,
    c1_cleanup_policy.1
      (.file "a.bin" 10 ⟨some TransferErrorReason.remoteIoError, 3, false⟩)
      ["up"] none (walkStart 10) ["up", "a.bin"]
      (some TransferErrorReason.remoteIoError) true (by decide)⟩

/-- The C2 scenario environment: a 100 B remote file; the first copy
iteration (at 0 ms) reads and writes a 40 B chunk, the second (at
600 ms) polls input, observes the cancellation, reads no data, and the
loop then observes the flag and stops. -/
def c2Env : RecvOneEnv :=
  { openWriteOk := true, recvFileOk := true,
    script := [ { now := 0, abortSignal := false, readResult := some 40, writeResults := [some 40] },
                { now := 600, abortSignal := true, readResult := some 0, writeResults := [] } ] }

/-- C2 counterexample: receiving a single 100 B file through the
`SingleFile` payload path (`filetransfer_recv_file`), cancelled after
40 B, returns the `Abrupted` error — but the ghost `removed` log stays
empty: no probe-and-remove of the partial local file happens anywhere
on this path, contrary to the claim that the file is removed
afterwards.  (The cleanup lives only in `filetransfer_recv_recurse`,
which the `SingleFile` payload never enters.) -/
theorem c2_counterexample :
    (filetransfer_recv_file 100 c2Env ["tmp", "file.bin"]).map
        (fun out => (out.2, out.1.removed)) =
      some (Except.error "File transfer aborted", []) := by
  rfl

/-- C2 as amended: the operation returns an `Abrupted` error, the
partial local file has been created and holds the 40 copied bytes, and
it is left in place — the `SingleFile` receive path attempts no
removal. -/
theorem c2_amended :
    (filetransfer_recv_file 100 c2Env ["tmp", "file.bin"]).map
        (fun out => (out.2, out.1.created, out.1.removed, out.1.totalBytesWritten)) =
      some (Except.error "File transfer aborted", [["tmp", "file.bin"]], [], 40) := by
  rfl

/-- C3: Once the aborted flag is observed true: the per-directory child
loops of both walks break before starting the next child (returning the
state unchanged with no events); the copy loop exits at its condition
check and surfaces `Abrupted` without consuming the script; no
successfully transferred file is ever the target of a removal attempt
(cleanup only follows failed transfers); and each file node produces at
most one per-file transfer call (nothing is retransferred). -/
theorem c3_abort_stops_walk :
    (∀ (cs : List SendNode) (rp : List String) (s : WalkSt),
        s.aborted = true → sendChildren cs rp s = (s, [])) ∧
    (∀ (cs : List RecvNode) (rp : List String) (s : WalkSt),
        s.aborted = true → recvChildren cs rp s = (s, [])) ∧
    (∀ (re we : TransferErrorReason) (size : Nat) (script : List CopyEnvIter) (s : CopySt),
        s.tr.aborted = true →
        copyLoop re we size script s = some (s, .error .abrupted)) ∧
    (∀ (node : SendNode) (p : List String) (d : Option String) (s : WalkSt)
        (path : List String),
        WalkEvent.transfer path none true ∉ (filetransfer_send_recurse node p d s).2) ∧
    (∀ (node : RecvNode) (p : List String) (d : Option String) (s : WalkSt)
        (path : List String),
        WalkEvent.transfer path none true ∉ (filetransfer_recv_recurse node p d s).2) ∧
    (∀ (node : SendNode) (p : List String) (d : Option String) (s : WalkSt),
        countTransfers (filetransfer_send_recurse node p d s).2 ≤ sendFileCount node) ∧
    (∀ (node : RecvNode) (p : List String) (d : Option String) (s : WalkSt),
        countTransfers (filetransfer_recv_recurse node p d s).2 ≤ recvFileCount node) := by
  refine ⟨?_, ?_, ?_, ?_, ?_, ?_, ?_⟩
  · intro cs rp s h
    cases cs <;> simp [sendChildren, h]
  · intro cs rp s h
    cases cs <;> simp [recvChildren, h]
  · intro re we size script s h
    exact copyLoop_aborted_entry re we size script s h
  · intro node p d s path hmem
    have := sendRecurse_cleaned node p d s _ hmem
    simp [eventCleanOkSend] at this
  · intro node p d s path hmem
    have := recvRecurse_cleaned node p d s _ hmem
    simp [eventCleanOkRecv] at this
  · intro node p d s
    exact sendRecurse_count node p d s
  · intro node p d s
    exact recvRecurse_count node p d s

/-- Witness for C3 at concrete aborted states: the child loops return
immediately and the copy loop surfaces `Abrupted`. -/
theorem c3_abort_stops_walk_witness :
    sendChildren [.file "x" 5 ⟨none, 5, false⟩] ["r"] ⟨true, 7, 9⟩ = (⟨true, 7, 9⟩, []) ∧
    recvChildren [.file "y" 5 ⟨none, 5, false⟩] ["r"] ⟨true, 7, 9⟩ = (⟨true, 7, 9⟩, []) ∧
    copyLoop TransferErrorReason.localIoError TransferErrorReason.remoteIoError 5 []
        { CopySt.start with tr := { TransferStates.reset with aborted := true } } =
      some ({ CopySt.start with tr := { TransferStates.reset with aborted := true } },
        .error .abrupted) :=
  ⟨c3_abort_stops_walk.1 [.file "x" 5 ⟨none, 5, false⟩] ["r"] ⟨true, 7, 9⟩ rfl,
   c3_abort_stops_walk.2.1 [.file "y" 5 ⟨none, 5, false⟩] ["r"] ⟨true, 7, 9⟩ rfl,
   c3_abort_stops_walk.2.2.1 TransferErrorReason.localIoError TransferErrorReason.remoteIoError
     5 [] { CopySt.start with tr := { TransferStates.reset with aborted := true } } rfl⟩

/-- C4: The aggregate size installed as `full.total` is the recursive
expansion of the payload: a file contributes its size, a directory with
a successful scan the sum of its children, a directory whose scan fails
exactly zero; the batch wrappers install the sum over their entries, so
a batch of N files yields the sum of the N sizes regardless of nesting;
and a failed scan does not stop the walk — the remaining top-level
entries still produce their events. -/
theorem c4_aggregate_size :
    (∀ (nm : String) (sz : Nat) (b : FileBehavior),
        get_total_transfer_size_local (.file nm sz b) = sz) ∧
    (∀ (nm : String) (mk : MkdirOutcome) (cs : List SendNode),
        get_total_transfer_size_local (.dir nm mk true cs) =
          (cs.map get_total_transfer_size_local).sum) ∧
    (∀ (nm : String) (mk : MkdirOutcome) (cs : List SendNode),
        get_total_transfer_size_local (.dir nm mk false cs) = 0) ∧
    (∀ (nm : String) (sz : Nat) (b : FileBehavior),
        get_total_transfer_size_remote (.file nm sz b) = sz) ∧
    (∀ (nm : String) (mkOk : Bool) (cs : List RecvNode),
        get_total_transfer_size_remote (.dir nm mkOk true cs) =
          (cs.map get_total_transfer_size_remote).sum) ∧
    (∀ (nm : String) (mkOk : Bool) (cs : List RecvNode),
        get_total_transfer_size_remote (.dir nm mkOk false cs) = 0) ∧
    (∀ (entries : List SendNode) (p : List String),
        (filetransfer_send_many entries p).1.1.fullTotal =
          (entries.map get_total_transfer_size_local).sum) ∧
    (∀ (entries : List RecvNode) (p : List String),
        (filetransfer_recv_many entries p).1.1.fullTotal =
          (entries.map get_total_transfer_size_remote).sum) ∧
    (∀ (nm : String) (cs rest : List SendNode) (p : List String) (s : WalkSt),
        sendManyLoop (.dir nm .ok false cs :: rest) p s =
          ((sendManyLoop rest p s).1,
            WalkEvent.mkdirOk (p ++ [nm]) :: WalkEvent.scanFail (p ++ [nm]) ::
              (sendManyLoop rest p s).2)) ∧
    (∀ (l : List (String × Nat)) (b : FileBehavior) (p : List String),
        (filetransfer_send_many (l.map fun x => SendNode.file x.1 x.2 b) p).1.1.fullTotal =
          (l.map fun x => x.2).sum) := by
  refine ⟨?_, ?_, ?_, ?_, ?_, ?_, ?_, ?_, ?_, ?_⟩
  · intro nm sz b; rfl
  · intro nm mk cs
    simp [get_total_transfer_size_local, sendSizeSum_eq_map_sum]
  · intro nm mk cs
    simp [get_total_transfer_size_local]
  · intro nm sz b; rfl
  · intro nm mkOk cs
    simp [get_total_transfer_size_remote, recvSizeSum_eq_map_sum]
  · intro nm mkOk cs
    simp [get_total_transfer_size_remote]
  · intro entries p
    rw [filetransfer_send_many]
    exact (sendManyLoop_fullTotal entries p (walkStart _)).trans rfl
  · intro entries p
    rw [filetransfer_recv_many]
    exact (recvManyLoop_fullTotal entries p (walkStart _)).trans rfl
  · intro nm cs rest p s
    simp [sendManyLoop, filetransfer_send_recurse]
  · intro l b p
    rw [filetransfer_send_many]
    refine ((sendManyLoop_fullTotal _ p (walkStart _)).trans ?_)
    show ((l.map fun x => SendNode.file x.1 x.2 b).map get_total_transfer_size_local).sum =
      (l.map fun x => x.2).sum
    rw [mapFileSizes]

/-- C5: A rename hint applies only to the top-level entry: running the
walk with `dst_name = Some newName` is the same as renaming the root
node and running it with no hint — all recursive calls pass `None`, so
nested children keep their own names. -/
theorem c5_rename_top_only :
    (∀ (node : SendNode) (p : List String) (s : WalkSt) (newName : String),
        filetransfer_send_recurse node p (some newName) s =
          filetransfer_send_recurse (node.renameRoot newName) p none s) ∧
    (∀ (node : RecvNode) (p : List String) (s : WalkSt) (newName : String),
        filetransfer_recv_recurse node p (some newName) s =
          filetransfer_recv_recurse (node.renameRoot newName) p none s) := by
  constructor
  · intro node p s newName
    cases node <;> rfl
  · intro node p s newName
    cases node <;> rfl

/-- C6: On the send path, a `DirectoryAlreadyExists` failure of the
remote mkdir is treated as success — the resulting state and the whole
subtree processing coincide with the successful-mkdir run (only the log
marker differs); any other mkdir failure stops exactly that subtree,
leaving the state untouched; and a sibling following such a failed
directory is still processed exactly as it would have been. -/
theorem c6_mkdir_already_exists :
    (∀ (nm : String) (scanOk : Bool) (cs : List SendNode) (p : List String)
        (d : Option String) (s : WalkSt),
        (filetransfer_send_recurse (.dir nm .alreadyExists scanOk cs) p d s).1 =
          (filetransfer_send_recurse (.dir nm .ok scanOk cs) p d s).1 ∧
        (filetransfer_send_recurse (.dir nm .alreadyExists scanOk cs) p d s).2 =
          WalkEvent.mkdirExists (p ++ [d.getD nm]) ::
            ((filetransfer_send_recurse (.dir nm .ok scanOk cs) p d s).2).tail ∧
        (filetransfer_send_recurse (.dir nm .ok scanOk cs) p d s).2.head? =
          some (.mkdirOk (p ++ [d.getD nm]))) ∧
    (∀ (nm : String) (scanOk : Bool) (cs : List SendNode) (p : List String)
        (d : Option String) (s : WalkSt),
        filetransfer_send_recurse (.dir nm .otherError scanOk cs) p d s =
          (s, [.mkdirFail (p ++ [d.getD nm])])) ∧
    (∀ (nm : String) (scanOk : Bool) (cs rest : List SendNode) (rp : List String)
        (s : WalkSt),
        s.aborted = false →
        sendChildren (.dir nm .otherError scanOk cs :: rest) rp s =
          ((sendChildren rest rp s).1,
            WalkEvent.mkdirFail (rp ++ [nm]) :: (sendChildren rest rp s).2)) := by
  refine ⟨?_, ?_, ?_⟩
  · intro nm scanOk cs p d s
    by_cases hscan : scanOk = true
    · subst hscan
      refine ⟨rfl, rfl, rfl⟩
    · have : scanOk = false := by simpa using hscan
      subst this
      refine ⟨rfl, rfl, rfl⟩
  · intro nm scanOk cs p d s
    rfl
  · intro nm scanOk cs rest rp s hab
    simp only [sendChildren]
    rw [if_neg (by simp [hab])]
    rfl

/-- Witness for C6 at a concrete un-aborted state: the sibling after a
failed directory creation is still transferred. -/
theorem c6_mkdir_already_exists_witness :
    sendChildren [.dir "bad" .otherError true [], .file "ok.txt" 3 ⟨none, 3, false⟩]
        ["r"] ⟨false, 0, 3⟩ =
      ((sendChildren [SendNode.file "ok.txt" 3 ⟨none, 3, false⟩] ["r"] ⟨false, 0, 3⟩).1,
        WalkEvent.mkdirFail ["r", "bad"] ::
          (sendChildren [SendNode.file "ok.txt" 3 ⟨none, 3, false⟩] ["r"] ⟨false, 0, 3⟩).2) :=
  c6_mkdir_already_exists.2.2 "bad" true [] [.file "ok.txt" 3 ⟨none, 3, false⟩]
    ["r"] ⟨false, 0, 3⟩ rfl

theorem copyLoop_allObsOk (re we : TransferErrorReason) (size : Nat)
    (script : List CopyEnvIter) (s : CopySt)
    (h1 : s.tr.part.total = size)
    (h2 : s.tr.part.transferred = s.totalBytesWritten)
    (h3 : s.totalBytesWritten + scriptReadSum script ≤ size)
    (h4 : s.tr.full.transferred + (size - s.tr.part.transferred) ≤ s.tr.full.total)
    (h5 : script.all iterValid = true)
    (h6 : s.obs.all obsLe = true) :
    allObsOk (copyLoop re we size script s) = true := by
  cases hc : copyLoop re we size script s with
  | none => rfl
  | some out =>
    obtain ⟨s1, r⟩ := out
    show s1.obs.all obsLe = true
    exact copyLoop_obs re we size script s s1 r h1 h2 h3 h4 h5 h6 hc

/-- C7: At every observation point of `filetransfer_send_one` and
`filetransfer_recv_one` (after `partial.init` and after every progress
update), `partial.transferred ≤ partial.total` and
`full.transferred ≤ full.total` — provided the read side delivers no
more bytes than the size the loop was initialised with (a consistent
snapshot), the write responses obey the `Write` contract, and the
aggregate total installed at the start of the invocation has room for
this file's size. -/
theorem c7_progress_invariant :
    (∀ (env : SendOneEnv) (s : CopySt),
        s.obs = [] →
        scriptReadSum env.script ≤ env.fileSize →
        env.script.all iterValid = true →
        s.tr.full.transferred + env.fileSize ≤ s.tr.full.total →
        allObsOk (filetransfer_send_one env s) = true) ∧
    (∀ (env : RecvOneEnv) (remoteSize : Nat) (lp : List String) (s : CopySt),
        s.obs = [] →
        scriptReadSum env.script ≤ remoteSize →
        env.script.all iterValid = true →
        s.tr.full.transferred + remoteSize ≤ s.tr.full.total →
        allObsOk (filetransfer_recv_one env remoteSize lp s) = true) := by
  constructor
  · intro env s hobs hread hvalid hroom
    rw [filetransfer_send_one]
    cases hor : env.openReadOk with
    | false => simp [hor, allObsOk, hobs]
    | true =>
      cases hsf : env.sendFileOk with
      | false => simp [hor, hsf, allObsOk, hobs]
      | true =>
        simp only [hor, hsf, Bool.not_true, Bool.false_eq_true, if_false]
        cases hrw : env.rewindOk with
        | false =>
          simp only [hrw, Bool.not_false, if_true]
          simp only [allObsOk, partInit, hobs]
          simp [obsLe, mkObs, ProgressState.init]
          omega
        | true =>
          simp only [hrw, Bool.not_true, Bool.false_eq_true, if_false]
          refine copyLoop_allObsOk _ _ env.fileSize env.script _ ?_ ?_ ?_ ?_ hvalid ?_
          · simp [partInit, ProgressState.init]
          · simp [partInit, ProgressState.init]
          · simpa using hread
          · simp [partInit, ProgressState.init]
            omega
          · simp [partInit, hobs, obsLe, mkObs, ProgressState.init]
            omega
  · intro env remoteSize lp s hobs hread hvalid hroom
    rw [filetransfer_recv_one]
    cases how : env.openWriteOk with
    | false => simp [how, allObsOk, hobs]
    | true =>
      cases hrf : env.recvFileOk with
      | false => simp [how, hrf, allObsOk, hobs]
      | true =>
        simp only [how, hrf, Bool.not_true, Bool.false_eq_true, if_false]
        refine copyLoop_allObsOk _ _ remoteSize env.script _ ?_ ?_ ?_ ?_ hvalid ?_
        · simp [partInit, ProgressState.init]
        · simp [partInit, ProgressState.init]
        · simpa using hread
        · simp [partInit, ProgressState.init]
          omega
        · simp [partInit, hobs, obsLe, mkObs, ProgressState.init]
          omega

def c7SendEnv : SendOneEnv :=
  ⟨true, true, 10, true, [⟨0, false, some 10, [some 10]⟩]⟩

def c7RecvEnv : RecvOneEnv :=
  ⟨true, true, [⟨0, false, some 10, [some 10]⟩]⟩

def c7St : CopySt :=
  { CopySt.start with tr := { TransferStates.reset with full := ProgressState.init 10 } }

/-- Witness for C7 at a concrete 10 B upload and download. -/
theorem c7_progress_invariant_witness :
    allObsOk (filetransfer_send_one c7SendEnv c7St) = true ∧
    allObsOk (filetransfer_recv_one c7RecvEnv 10 ["dl", "f.bin"] c7St) = true :=
  ⟨c7_progress_invariant.1 c7SendEnv c7St rfl (by decide) (by decide) (by decide),
   c7_progress_invariant.2 c7RecvEnv 10 ["dl", "f.bin"] c7St rfl (by decide) (by decide)
     (by decide)⟩

def c8ZeroEnv : SendOneEnv := ⟨true, true, 0, true, []⟩

/-- C8 counterexample: a zero-sized file completes its transfer
(`Ok`) without the copy loop body ever running, so `read_input_event`
is never called during that file — refuting "always at least once per
file". -/
theorem c8_counterexample :
    (filetransfer_send_one c8ZeroEnv CopySt.start).isSome = true ∧
    pollsOf (filetransfer_send_one c8ZeroEnv CopySt.start) = [] := by
  constructor <;> rfl

theorem copyLoop_pollsOf_head (re we : TransferErrorReason) (size : Nat)
    (it : CopyEnvIter) (rest : List CopyEnvIter) (s : CopySt)
    (hp : s.polls = []) (hf : s.lastInputEventFetch = none)
    (hlt : s.totalBytesWritten < size) (hab : s.tr.aborted = false)
    (hs : (copyLoop re we size (it :: rest) s).isSome = true) :
    (pollsOf (copyLoop re we size (it :: rest) s)).head? = some it.now := by
  cases hc : copyLoop re we size (it :: rest) s with
  | none => rw [hc] at hs; simp at hs
  | some out =>
    obtain ⟨s1, r⟩ := out
    show s1.polls.head? = some it.now
    exact copyLoop_first_poll re we size it rest s s1 r hp hf hlt hab hc

theorem copyLoop_pollsOf_sep (re we : TransferErrorReason) (size : Nat)
    (script : List CopyEnvIter) (s : CopySt) (hinv : pollInv s) :
    sep500 (pollsOf (copyLoop re we size script s)) = true := by
  cases hc : copyLoop re we size script s with
  | none => rfl
  | some out =>
    obtain ⟨s1, r⟩ := out
    show sep500 s1.polls = true
    exact copyLoop_polls_sep re we size script s s1 r hinv hc

/-- C8 as amended: during the chunked copy of a file, input polls are
throttled — consecutive `read_input_event` calls are at least 500 ms
apart — and the first iteration of the copy loop always polls (the
last-fetch instant starts as `None`); a file whose copy loop never runs
(zero remaining size, or the flag already set) performs no poll at all,
so the poll happens "at least once" only for files whose loop body
executes. -/
theorem c8_poll_cadence :
    (∀ (env : SendOneEnv) (s : CopySt) (it : CopyEnvIter) (rest : List CopyEnvIter),
        env.script = it :: rest →
        env.openReadOk = true → env.sendFileOk = true → env.rewindOk = true →
        0 < env.fileSize → s.tr.aborted = false → s.polls = [] →
        (filetransfer_send_one env s).isSome = true →
        (pollsOf (filetransfer_send_one env s)).head? = some it.now) ∧
    (∀ (env : RecvOneEnv) (remoteSize : Nat) (lp : List String) (s : CopySt)
        (it : CopyEnvIter) (rest : List CopyEnvIter),
        env.script = it :: rest →
        env.openWriteOk = true → env.recvFileOk = true →
        0 < remoteSize → s.tr.aborted = false → s.polls = [] →
        (filetransfer_recv_one env remoteSize lp s).isSome = true →
        (pollsOf (filetransfer_recv_one env remoteSize lp s)).head? = some it.now) ∧
    (∀ (env : SendOneEnv) (s : CopySt),
        s.polls = [] →
        sep500 (pollsOf (filetransfer_send_one env s)) = true) ∧
    (∀ (env : RecvOneEnv) (remoteSize : Nat) (lp : List String) (s : CopySt),
        s.polls = [] →
        sep500 (pollsOf (filetransfer_recv_one env remoteSize lp s)) = true) := by
  refine ⟨?_, ?_, ?_, ?_⟩
  · intro env s it rest hscript hor hsf hrw hsize hab hp hsome
    rw [filetransfer_send_one] at hsome ⊢
    simp only [hor, hsf, hrw, Bool.not_true, Bool.false_eq_true, if_false] at hsome ⊢
    rw [hscript] at hsome ⊢
    refine copyLoop_pollsOf_head _ _ env.fileSize it rest _ ?_ ?_ ?_ ?_ hsome
    · simp [partInit, hp]
    · rfl
    · simpa using hsize
    · simp [partInit, hab]
  · intro env remoteSize lp s it rest hscript how hrf hsize hab hp hsome
    rw [filetransfer_recv_one] at hsome ⊢
    simp only [how, hrf, Bool.not_true, Bool.false_eq_true, if_false] at hsome ⊢
    rw [hscript] at hsome ⊢
    refine copyLoop_pollsOf_head _ _ remoteSize it rest _ ?_ ?_ ?_ ?_ hsome
    · simp [partInit, hp]
    · rfl
    · simpa using hsize
    · simp [partInit, hab]
  · intro env s hp
    rw [filetransfer_send_one]
    cases hor : env.openReadOk with
    | false => simp [hor, pollsOf, hp, sep500]
    | true =>
      cases hsf : env.sendFileOk with
      | false => simp [hor, hsf, pollsOf, hp, sep500]
      | true =>
        simp only [hor, hsf, Bool.not_true, Bool.false_eq_true, if_false]
        cases hrw : env.rewindOk with
        | false =>
          simp only [hrw, Bool.not_false, if_true]
          simp [pollsOf, partInit, hp, sep500]
        | true =>
          simp only [hrw, Bool.not_true, Bool.false_eq_true, if_false]
          refine copyLoop_pollsOf_sep _ _ env.fileSize env.script _ ?_
          constructor
          · simp [partInit, hp, sep500]
          · exact Or.inl ⟨rfl, by simp [partInit, hp]⟩
  · intro env remoteSize lp s hp
    rw [filetransfer_recv_one]
    cases how : env.openWriteOk with
    | false => simp [how, pollsOf, hp, sep500]
    | true =>
      cases hrf : env.recvFileOk with
      | false => simp [how, hrf, pollsOf, hp, sep500]
      | true =>
        simp only [how, hrf, Bool.not_true, Bool.false_eq_true, if_false]
        refine copyLoop_pollsOf_sep _ _ remoteSize env.script _ ?_
        constructor
        · simp [partInit, hp, sep500]
        · exact Or.inl ⟨rfl, by simp [partInit, hp]⟩

def c8TwoChunkEnv : SendOneEnv :=
  ⟨true, true, 131072, true,
    [⟨100, false, some 65536, [some 65536]⟩, ⟨700, true, some 65536, [some 65536]⟩]⟩

/-- Witness for C8: a two-chunk upload polls on its first iteration (at
100 ms) and its poll log is 500 ms separated. -/
theorem c8_poll_cadence_witness :
    (pollsOf (filetransfer_send_one c8TwoChunkEnv CopySt.start)).head? = some 100 ∧
    sep500 (pollsOf (filetransfer_send_one c8TwoChunkEnv CopySt.start)) = true :=
  ⟨c8_poll_cadence.1 c8TwoChunkEnv CopySt.start
      ⟨100, false, some 65536, [some 65536]⟩ [⟨700, true, some 65536, [some 65536]⟩]
      rfl rfl rfl rfl (by decide) rfl rfl (by decide),
   c8_poll_cadence.2.2.1 c8TwoChunkEnv CopySt.start rfl⟩

/-- C9: The `Any` and `Many` payload wrappers of both send and receive
always return `Ok(())`, whatever per-entry failures or aborts the walk
encountered; only the `File` payload wrappers propagate a transfer
error through their `Result` (shown at a failing open on each side). -/
theorem c9_any_many_always_ok :
    (∀ (node : SendNode) (p : List String) (d : Option String),
        (filetransfer_send_any node p d).2 = Except.ok ()) ∧
    (∀ (entries : List SendNode) (p : List String),
        (filetransfer_send_many entries p).2 = Except.ok ()) ∧
    (∀ (node : RecvNode) (p : List String) (d : Option String),
        (filetransfer_recv_any node p d).2 = Except.ok ()) ∧
    (∀ (entries : List RecvNode) (p : List String),
        (filetransfer_recv_many entries p).2 = Except.ok ()) ∧
    ((filetransfer_send_file 5 ⟨false, true, 5, true, []⟩).map (fun out => out.2) =
      some (Except.error "Host error")) ∧
    ((filetransfer_recv_file 5 ⟨false, true, []⟩ ["dl", "x"]).map (fun out => out.2) =
      some (Except.error "Host error")) := by
  refine ⟨?_, ?_, ?_, ?_, ?_, ?_⟩
  · intro node p d; rfl
  · intro entries p; rfl
  · intro node p d; rfl
  · intro entries p; rfl
  · rfl
  · rfl

/-- C10: Every chunk read from the source is written to the destination
in full before progress is updated.  The inner write loop repeats on
short writes until the whole chunk is written (under the `Write`
contract a normal termination returns exactly `bytes_read`); the copy
loop then updates `partial` and `full` by exactly that chunk size; and
when the write side fails mid-chunk, the copy returns the write-side
error with both progress counters unchanged — bytes read but not fully
written are never counted. -/
theorem c10_full_chunk_progress :
    (∀ (bytesRead : Nat) (ws : List (Option Nat)) (d : Nat),
        writeScriptValid bytesRead ws 0 = true →
        writeLoop bytesRead ws 0 = some (.done d) → d = bytesRead) ∧
    (∀ (re we : TransferErrorReason) (size : Nat) (it : CopyEnvIter)
        (rest : List CopyEnvIter) (s : CopySt) (n d : Nat),
        s.totalBytesWritten < size → s.tr.aborted = false →
        it.readResult = some n → n ≠ 0 →
        writeScriptValid n it.writeResults 0 = true →
        writeLoop n it.writeResults 0 = some (.done d) →
        (copyLoop re we size (it :: rest) s =
          copyLoop re we size rest
            (progressUpdate
              { pollStep s it with
                  totalBytesWritten := (pollStep s it).totalBytesWritten + n } n) ∧
        (progressUpdate
            { pollStep s it with
                totalBytesWritten := (pollStep s it).totalBytesWritten + n } n).tr.part.transferred =
          s.tr.part.transferred + n ∧
        (progressUpdate
            { pollStep s it with
                totalBytesWritten := (pollStep s it).totalBytesWritten + n } n).tr.full.transferred =
          s.tr.full.transferred + n)) ∧
    (∀ (re we : TransferErrorReason) (size : Nat) (it : CopyEnvIter)
        (rest : List CopyEnvIter) (s : CopySt) (n : Nat),
        s.totalBytesWritten < size → s.tr.aborted = false →
        it.readResult = some n → n ≠ 0 →
        writeLoop n it.writeResults 0 = some .ioErr →
        (copyLoop re we size (it :: rest) s =
          some ({ pollStep s it with
              totalBytesWritten := (pollStep s it).totalBytesWritten + n }, .error we) ∧
        ({ pollStep s it with
            totalBytesWritten := (pollStep s it).totalBytesWritten + n } : CopySt).tr.part.transferred =
          s.tr.part.transferred ∧
        ({ pollStep s it with
            totalBytesWritten := (pollStep s it).totalBytesWritten + n } : CopySt).tr.full.transferred =
          s.tr.full.transferred)) := by
  refine ⟨?_, ?_, ?_⟩
  · intro bytesRead ws d hv hw
    exact writeLoop_valid_done bytesRead ws 0 d hv (Nat.zero_le bytesRead) hw
  · intro re we size it rest s n d hlt hab hread hn hv hw
    have hd : d = n := writeLoop_valid_done n it.writeResults 0 d hv (Nat.zero_le n) hw
    subst hd
    refine ⟨?_, ?_, ?_⟩
    · simp only [copyLoop]
      rw [if_pos (by simp [hlt, hab])]
      simp only [hread]
      rw [if_neg hn, hw]
    · simp only [progressUpdate_part_trans, pollStep_part]
    · simp only [progressUpdate_full_trans, pollStep_full]
  · intro re we size it rest s n hlt hab hread hn hw
    refine ⟨?_, ?_, ?_⟩
    · simp only [copyLoop]
      rw [if_pos (by simp [hlt, hab])]
      simp only [hread]
      rw [if_neg hn, hw]
    · simp only [pollStep_part]
    · simp only [pollStep_full]

/-- Witness for C10: a 10-byte chunk written in two short writes of 4
and 6 bytes is counted as exactly 10. -/
theorem c10_full_chunk_progress_witness :
    (10 : Nat) = 10 ∧
    copyLoop TransferErrorReason.localIoError TransferErrorReason.remoteIoError 20
        [⟨0, false, some 10, [some 4, some 6]⟩] CopySt.start =
      copyLoop TransferErrorReason.localIoError TransferErrorReason.remoteIoError 20 []
        (progressUpdate
          { pollStep CopySt.start ⟨0, false, some 10, [some 4, some 6]⟩ with
              totalBytesWritten :=
                (pollStep CopySt.start ⟨0, false, some 10, [some 4, some 6]⟩).totalBytesWritten +
                  10 } 10) :=
  ⟨c10_full_chunk_progress.1 10 [some 4, some 6] 10 (by decide) (by decide),
   (c10_full_chunk_progress.2.1 TransferErrorReason.localIoError
      TransferErrorReason.remoteIoError 20 ⟨0, false, some 10, [some 4, some 6]⟩ []
      CopySt.start 10 10 (by decide) rfl rfl (by decide) (by decide) (by decide)).1⟩
